import Mathlib

/-
Verification of the churn-prediction business core:
shallow embedding of src/business/cost_matrix.py, threshold_optimization.py,
roi_analysis.py and segment_strategy.py.

Machine integers do not occur; Python floats are modelled by exact rationals,
label arrays by lists of booleans, pandas rows by structures, and the
fallible sklearn confusion-matrix unpacking by an Except value.
-/

/-- Cost matrix built by get_cost_matrix (src/business/cost_matrix.py):
CLV, the two retention parameters, and the four per-outcome net values. -/
structure CostMatrix where
  CLV : ℚ
  RETENTION_COST : ℚ
  RETENTION_SUCCESS_RATE : ℚ
  TP : ℚ
  FP : ℚ
  FN : ℚ
  TN : ℚ
  deriving DecidableEq, Repr

/-- Translation of get_cost_matrix (src/business/cost_matrix.py lines 26-66),
with the source defaults retention_cost=50, retention_success_rate=0.25. -/
def get_cost_matrix (clv : ℚ) (retention_cost : ℚ := 50)
    (retention_success_rate : ℚ := 1/4) : CostMatrix :=
  { CLV := clv
    RETENTION_COST := retention_cost
    RETENTION_SUCCESS_RATE := retention_success_rate
    TP := clv * retention_success_rate - retention_cost
    FP := -retention_cost
    FN := -(clv * retention_success_rate)
    TN := 0 }

/-- Failure of the call `tn, fp, fn, tp = confusion_matrix(y_true, y_pred).ravel()`
(src/business/threshold_optimization.py line 35). sklearn raises a ValueError
when the two arrays have different lengths, and the 4-way unpacking raises a
ValueError when the label set inferred from y_true and y_pred has fewer than
two classes (the matrix is then smaller than 2 by 2); this includes empty input. -/
inductive CalcError where
  | lengthMismatch
  | confusionMatrixUnpack
  deriving DecidableEq, Repr

/-- Prediction step of calculate_business_metrics
(src/business/threshold_optimization.py line 32):
`y_pred = (y_proba >= threshold).astype(int)` — inclusive comparison. -/
def y_pred (y_proba : List ℚ) (threshold : ℚ) : List Bool :=
  y_proba.map fun p => decide (p ≥ threshold)

/-- One row of the sweep table, as returned by calculate_business_metrics
(src/business/threshold_optimization.py lines 56-69). Contingency counts are
tallies, hence naturals; monetary quantities and rates are rationals. -/
structure BusinessMetricsRecord where
  Threshold : ℚ
  Customers_Contacted : ℕ
  TP : ℕ
  FP : ℕ
  FN : ℕ
  TN : ℕ
  Precision : ℚ
  Recall : ℚ
  Retention_Cost : ℚ
  Revenue_Saved : ℚ
  Opportunity_Cost : ℚ
  Net_ROI : ℚ
  deriving DecidableEq, Repr

/-- Translation of calculate_business_metrics
(src/business/threshold_optimization.py lines 13-69). The confusion-matrix
counts are the exact tallies over the zipped (label, prediction) pairs; the
computation fails exactly where the sklearn call raises: on a length mismatch,
and when y_true and y_pred together contain fewer than two distinct classes
(so that the 2x2 unpacking of `.ravel()` is impossible). -/
def calculate_business_metrics (y_true : List Bool) (y_proba : List ℚ)
    (threshold : ℚ) (cost_matrix : CostMatrix) :
    Except CalcError BusinessMetricsRecord :=
  let pred := y_pred y_proba threshold
  if y_true.length = y_proba.length then
    if true ∈ y_true ++ pred ∧ false ∈ y_true ++ pred then
      let pairs := y_true.zip pred
      let tp := pairs.countP fun x => x.1 && x.2
      let fp := pairs.countP fun x => !x.1 && x.2
      let fn := pairs.countP fun x => x.1 && !x.2
      let tn := pairs.countP fun x => !x.1 && !x.2
      let customers_contacted := tp + fp
      let total_retention_cost := (customers_contacted : ℚ) * cost_matrix.RETENTION_COST
      let revenue_saved := (tp : ℚ) * cost_matrix.RETENTION_SUCCESS_RATE * cost_matrix.CLV
      let opportunity_cost := (fn : ℚ) * cost_matrix.RETENTION_SUCCESS_RATE * cost_matrix.CLV
      let net_roi := revenue_saved - total_retention_cost
      let prec_val : ℚ := if 0 < tp + fp then (tp : ℚ) / ((tp : ℚ) + (fp : ℚ)) else 0
      let recall_val : ℚ := if 0 < tp + fn then (tp : ℚ) / ((tp : ℚ) + (fn : ℚ)) else 0
      .ok { Threshold := threshold
            Customers_Contacted := customers_contacted
            TP := tp
            FP := fp
            FN := fn
            TN := tn
            Precision := prec_val
            Recall := recall_val
            Retention_Cost := total_retention_cost
            Revenue_Saved := revenue_saved
            Opportunity_Cost := opportunity_cost
            Net_ROI := net_roi }
    else .error .confusionMatrixUnpack
  else .error .lengthMismatch

/-- The threshold grid `np.arange(start, stop, step)` used by threshold_sweep
(src/business/threshold_optimization.py line 94): the half-open grid
start, start+step, ... of length ceil((stop-start)/step) (zero when that
quantity is not positive). -/
def arange (start stop step : ℚ) : List ℚ :=
  (List.range (⌈(stop - start) / step⌉.toNat)).map fun i : ℕ => start + (i : ℚ) * step

/-- Sequential evaluation of a fallible function over a list, propagating the
first error — the behaviour of the Python `for t in thresholds` loop, which
raises out of the whole sweep at the first failing threshold. -/
def mapExcept {α β ε : Type} (f : α → Except ε β) : List α → Except ε (List β)
  | [] => .ok []
  | a :: l =>
    match f a with
    | .error e => .error e
    | .ok b =>
      match mapExcept f l with
      | .error e => .error e
      | .ok l2 => .ok (b :: l2)

/-- Translation of threshold_sweep (src/business/threshold_optimization.py
lines 72-101), with the source defaults start=0.1, end=0.95, step=0.05;
one calculate_business_metrics call per grid point, appended in grid order. -/
def threshold_sweep (y_true : List Bool) (y_proba : List ℚ)
    (cost_matrix : CostMatrix) (start : ℚ := 1/10) (stop : ℚ := 19/20)
    (step : ℚ := 1/20) : Except CalcError (List BusinessMetricsRecord) :=
  mapExcept (fun t => calculate_business_metrics y_true y_proba t cost_matrix)
    (arange start stop step)

/-- The pandas `Series.idxmax` used on sweep columns
(src/business/threshold_optimization.py line 115 and the analogous calls in
roi_analysis.py and segment_strategy.py): index of the first occurrence of
the maximum value. -/
def idxmax : List ℚ → ℕ
  | [] => 0
  | x :: xs => if xs.all (fun y => decide (y ≤ x)) then 0 else idxmax xs + 1

/-- Translation of find_optimal_threshold
(src/business/threshold_optimization.py lines 104-116):
`sweep_df.loc[sweep_df[metric].idxmax()]`. The optimized column is modelled
as a rational-valued projection out of the record; none is returned only on
an empty table (where pandas idxmax raises). -/
def find_optimal_threshold (sweep_df : List BusinessMetricsRecord)
    (metric : BusinessMetricsRecord → ℚ) : Option BusinessMetricsRecord :=
  sweep_df.get? (idxmax (sweep_df.map metric))

/-- The dictionary returned by compare_models
(src/business/roi_analysis.py lines 30-44). -/
structure CompareResult where
  model : String
  threshold : ℚ
  roi : ℚ
  sweep : List BusinessMetricsRecord
  optimal : BusinessMetricsRecord
  deriving DecidableEq, Repr

/-- Translation of compare_models (src/business/roi_analysis.py lines 12-44):
each sweep's idxmax row on Net_ROI is taken, and Logistic Regression is
returned exactly when its optimum is strictly greater; otherwise Random
Forest. none only when a sweep is empty (pandas idxmax raises there). -/
def compare_models (lr_sweep rf_sweep : List BusinessMetricsRecord) :
    Option CompareResult :=
  (find_optimal_threshold lr_sweep (fun r => r.Net_ROI)).bind fun lr_optimal =>
  (find_optimal_threshold rf_sweep (fun r => r.Net_ROI)).bind fun rf_optimal =>
  if rf_optimal.Net_ROI < lr_optimal.Net_ROI then
    some { model := "Logistic Regression"
           threshold := lr_optimal.Threshold
           roi := lr_optimal.Net_ROI
           sweep := lr_sweep
           optimal := lr_optimal }
  else
    some { model := "Random Forest"
           threshold := rf_optimal.Threshold
           roi := rf_optimal.Net_ROI
           sweep := rf_sweep
           optimal := rf_optimal }

/-- The segment-specific cost matrix built inside segment_threshold_analysis
(src/business/segment_strategy.py lines 85-88): a copy of the base matrix
with CLV overwritten and TP, FN recomputed from the segment CLV using the
base matrix's RETENTION_SUCCESS_RATE and RETENTION_COST. -/
def segment_cost_matrix (base_cost_matrix : CostMatrix) (segment_clv : ℚ) :
    CostMatrix :=
  { base_cost_matrix with
    CLV := segment_clv
    TP := segment_clv * base_cost_matrix.RETENTION_SUCCESS_RATE -
      base_cost_matrix.RETENTION_COST
    FN := -(segment_clv * base_cost_matrix.RETENTION_SUCCESS_RATE) }

/-- Translation of segment_threshold_analysis
(src/business/segment_strategy.py lines 61-94): a threshold sweep of the
segment's labels and scores under the segment-specific cost matrix, over the
default grid np.arange(0.1, 0.95, 0.05). -/
def segment_threshold_analysis (y_true : List Bool) (y_proba : List ℚ)
    (segment_clv : ℚ) (base_cost_matrix : CostMatrix) :
    Except CalcError (List BusinessMetricsRecord) :=
  threshold_sweep y_true y_proba (segment_cost_matrix base_cost_matrix segment_clv)

/-- The dictionary returned by compare_strategies
(src/business/segment_strategy.py lines 129-138). -/
structure StrategyComparison where
  single_threshold : ℚ
  single_high_roi : ℚ
  single_low_roi : ℚ
  single_total_roi : ℚ
  high_value_optimal : BusinessMetricsRecord
  low_value_optimal : BusinessMetricsRecord
  segment_total_roi : ℚ
  improvement : ℚ
  deriving DecidableEq, Repr

/-- Translation of compare_strategies (src/business/segment_strategy.py
lines 97-138): each segment's idxmax row on Net_ROI, and the first row of
each sweep whose Threshold equals best_single_threshold exactly (the
`.values[0]` of the boolean-mask lookup); none when a sweep is empty or the
exact-equality lookup finds no row (Python raises in both cases). -/
def compare_strategies (high_value_sweep low_value_sweep : List BusinessMetricsRecord)
    (best_single_threshold : ℚ) : Option StrategyComparison :=
  (find_optimal_threshold high_value_sweep (fun r => r.Net_ROI)).bind fun high_value_optimal =>
  (find_optimal_threshold low_value_sweep (fun r => r.Net_ROI)).bind fun low_value_optimal =>
  ((high_value_sweep.filter fun r =>
    decide (r.Threshold = best_single_threshold)).head?).bind fun single_high_row =>
  ((low_value_sweep.filter fun r =>
    decide (r.Threshold = best_single_threshold)).head?).bind fun single_low_row =>
  some { single_threshold := best_single_threshold
         single_high_roi := single_high_row.Net_ROI
         single_low_roi := single_low_row.Net_ROI
         single_total_roi := single_high_row.Net_ROI + single_low_row.Net_ROI
         high_value_optimal := high_value_optimal
         low_value_optimal := low_value_optimal
         segment_total_roi := high_value_optimal.Net_ROI + low_value_optimal.Net_ROI
         improvement := high_value_optimal.Net_ROI + low_value_optimal.Net_ROI -
           (single_high_row.Net_ROI + single_low_row.Net_ROI) }

/-- A concrete sweep row used as input in concrete instantiations:
threshold 0.25, one true positive, Net_ROI 250. -/
def sampleRow1 : BusinessMetricsRecord :=
  { Threshold := 1/4, Customers_Contacted := 1, TP := 1, FP := 0, FN := 0,
    TN := 1, Precision := 1, Recall := 1, Retention_Cost := 50,
    Revenue_Saved := 300, Opportunity_Cost := 0, Net_ROI := 250 }

/-- A second concrete sweep row: threshold 0.5 and the same Net_ROI 250,
so that ties with sampleRow1 can be exercised. -/
def sampleRow2 : BusinessMetricsRecord :=
  { Threshold := 1/2, Customers_Contacted := 1, TP := 1, FP := 0, FN := 0,
    TN := 1, Precision := 1, Recall := 1, Retention_Cost := 50,
    Revenue_Saved := 300, Opportunity_Cost := 0, Net_ROI := 250 }

-- ## Helper lemmas

/-- The prediction list has one entry per score. -/
lemma length_y_pred (y_proba : List ℚ) (threshold : ℚ) :
    (y_pred y_proba threshold).length = y_proba.length :=
  List.length_map _ _

/-- The four confusion cells partition the zipped pairs. -/
lemma countP_confusion_partition (l : List (Bool × Bool)) :
    (l.countP fun x => x.1 && x.2) + (l.countP fun x => !x.1 && x.2) +
      (l.countP fun x => x.1 && !x.2) + (l.countP fun x => !x.1 && !x.2) =
      l.length := by
  induction l with
  | nil => simp
  | cons a l ih =>
    rcases a with ⟨b, c⟩
    cases b <;> cases c <;> simp [List.countP_cons] <;> omega

/-- Shape of a successful calculate_business_metrics call: the input lengths
agree and every field of the returned record is the source formula. -/
lemma calculate_ok (y_true : List Bool) (y_proba : List ℚ) (threshold : ℚ)
    (cm : CostMatrix) (r : BusinessMetricsRecord)
    (h : calculate_business_metrics y_true y_proba threshold cm = .ok r) :
    y_true.length = y_proba.length ∧
    r.TP = ((y_true.zip (y_pred y_proba threshold)).countP fun x => x.1 && x.2) ∧
    r.FP = ((y_true.zip (y_pred y_proba threshold)).countP fun x => !x.1 && x.2) ∧
    r.FN = ((y_true.zip (y_pred y_proba threshold)).countP fun x => x.1 && !x.2) ∧
    r.TN = ((y_true.zip (y_pred y_proba threshold)).countP fun x => !x.1 && !x.2) ∧
    r.Threshold = threshold ∧
    r.Customers_Contacted = r.TP + r.FP ∧
    r.Retention_Cost = ((r.TP + r.FP : ℕ) : ℚ) * cm.RETENTION_COST ∧
    r.Revenue_Saved = (r.TP : ℚ) * cm.RETENTION_SUCCESS_RATE * cm.CLV ∧
    r.Opportunity_Cost = (r.FN : ℚ) * cm.RETENTION_SUCCESS_RATE * cm.CLV ∧
    r.Net_ROI = r.Revenue_Saved - r.Retention_Cost := by
  simp only [calculate_business_metrics] at h
  by_cases h1 : y_true.length = y_proba.length
  · by_cases h2 : true ∈ y_true ++ y_pred y_proba threshold ∧
        false ∈ y_true ++ y_pred y_proba threshold
    · rw [if_pos h1, if_pos h2, Except.ok.injEq] at h
      subst h
      refine ⟨h1, rfl, rfl, rfl, rfl, rfl, rfl, ?_, rfl, rfl, rfl⟩
      push_cast
      ring
    · rw [if_pos h1, if_neg h2] at h
      exact absurd h (by simp)
  · rw [if_neg h1] at h
    exact absurd h (by simp)

/-- A calculate_business_metrics call succeeds when the lengths agree and the
true labels already contain both classes. -/
lemma calculate_ok_of_mixed (y_true : List Bool) (y_proba : List ℚ)
    (threshold : ℚ) (cm : CostMatrix) (hlen : y_true.length = y_proba.length)
    (hpos : true ∈ y_true) (hneg : false ∈ y_true) :
    ∃ r, calculate_business_metrics y_true y_proba threshold cm = .ok r := by
  simp only [calculate_business_metrics]
  rw [if_pos hlen,
    if_pos ⟨List.mem_append_left _ hpos, List.mem_append_left _ hneg⟩]
  exact ⟨_, rfl⟩

/-- Specification of mapExcept on success: the output has one entry per input
and each entry is the successful image of the corresponding input. -/
lemma mapExcept_ok {α β ε : Type} (f : α → Except ε β) :
    ∀ (l : List α) (l2 : List β), mapExcept f l = .ok l2 →
      l2.length = l.length ∧
      ∀ i a b, l.get? i = some a → l2.get? i = some b → f a = .ok b := by
  intro l
  induction l with
  | nil =>
    intro l2 h
    simp only [mapExcept, Except.ok.injEq] at h
    subst h
    simp
  | cons a l ih =>
    intro l2 h
    simp only [mapExcept] at h
    rcases hfa : f a with e | b
    · rw [hfa] at h; exact absurd h (by simp)
    · rw [hfa] at h
      rcases hrest : mapExcept f l with e | l3
      · rw [hrest] at h; exact absurd h (by simp)
      · rw [hrest] at h
        rw [Except.ok.injEq] at h
        subst h
        obtain ⟨hlen, hget⟩ := ih l3 hrest
        refine ⟨by simp [hlen], ?_⟩
        intro i x y hx hy
        cases i with
        | zero =>
          simp only [List.get?] at hx hy
          rw [Option.some.injEq] at hx hy
          subst hx; subst hy; exact hfa
        | succ i =>
          simp only [List.get?] at hx hy
          exact hget i x y hx hy

/-- mapExcept succeeds when every element succeeds. -/
lemma mapExcept_ok_of_forall {α β ε : Type} (f : α → Except ε β) :
    ∀ (l : List α), (∀ a ∈ l, ∃ b, f a = .ok b) →
      ∃ l2, mapExcept f l = .ok l2 := by
  intro l
  induction l with
  | nil => intro _; exact ⟨[], rfl⟩
  | cons a l ih =>
    intro h
    obtain ⟨b, hb⟩ := h a (List.mem_cons_self a l)
    obtain ⟨l2, hl2⟩ := ih fun x hx => h x (List.mem_cons_of_mem a hx)
    exact ⟨b :: l2, by simp only [mapExcept, hb, hl2]⟩

/-- Specification of idxmax: on a non-empty list it points at a maximal value,
and every entry strictly before it is strictly below that value (first
occurrence of the maximum, the pandas idxmax contract). -/
lemma idxmax_spec : ∀ (l : List ℚ), l ≠ [] →
    ∃ m, l.get? (idxmax l) = some m ∧ (∀ y ∈ l, y ≤ m) ∧
      ∀ j y, j < idxmax l → l.get? j = some y → y < m := by
  intro l
  induction l with
  | nil => intro h; exact absurd rfl h
  | cons x xs ih =>
    intro _
    by_cases hall : xs.all (fun y => decide (y ≤ x)) = true
    · refine ⟨x, ?_, ?_, ?_⟩
      · simp [idxmax, hall]
      · intro y hy
        rcases List.mem_cons.mp hy with hy | hy
        · exact le_of_eq hy
        · simpa using List.all_eq_true.mp hall y hy
      · intro j y hj
        simp [idxmax, hall] at hj
    · have hxs : xs ≠ [] := by
        rintro rfl
        simp [List.all_nil] at hall
      obtain ⟨m, hget, hmax, hfirst⟩ := ih hxs
      have hidx : idxmax (x :: xs) = idxmax xs + 1 := by
        simp [idxmax, hall]
      obtain ⟨z, hz, hzx⟩ : ∃ z ∈ xs, ¬ z ≤ x := by
        simpa using hall
      have hxm : x < m := lt_of_lt_of_le (lt_of_not_le hzx) (hmax z hz)
      refine ⟨m, ?_, ?_, ?_⟩
      · rw [hidx]
        simpa using hget
      · intro y hy
        rcases List.mem_cons.mp hy with hy | hy
        · exact hy ▸ le_of_lt hxm
        · exact hmax y hy
      · intro j y hj hget2
        rw [hidx] at hj
        cases j with
        | zero =>
          simp only [List.get?, Option.some.injEq] at hget2
          exact hget2 ▸ hxm
        | succ j =>
          simp only [List.get?] at hget2
          exact hfirst j y (Nat.lt_of_succ_lt_succ hj) hget2

/-- Specification of find_optimal_threshold on a non-empty table: it returns
the first row whose metric value is maximal. -/
lemma find_optimal_threshold_spec (l : List BusinessMetricsRecord)
    (metric : BusinessMetricsRecord → ℚ) (hne : l ≠ []) :
    ∃ r, find_optimal_threshold l metric = some r ∧ r ∈ l ∧
      (∀ s ∈ l, metric s ≤ metric r) ∧
      ∀ j s, j < idxmax (l.map metric) → l.get? j = some s → metric s < metric r := by
  have hmapne : l.map metric ≠ [] := by
    simpa using hne
  obtain ⟨m, hget, hmax, hfirst⟩ := idxmax_spec (l.map metric) hmapne
  rw [List.get?_map] at hget
  rcases hr : l.get? (idxmax (l.map metric)) with _ | r
  · rw [hr] at hget
    exact absurd hget (by simp)
  · rw [hr] at hget
    have hget : metric r = m := by simpa using hget
    refine ⟨r, hr, List.get?_mem hr, ?_, ?_⟩
    · intro s hs
      exact hget ▸ hmax (metric s) (List.mem_map_of_mem metric hs)
    · intro j s hj hs
      refine hget ▸ hfirst j (metric s) hj ?_
      rw [List.get?_map, hs]
      rfl

/-- Weak form: whenever find_optimal_threshold returns a row, that row belongs
to the table and carries the maximum value of the metric. -/
lemma find_optimal_threshold_mem_max {l : List BusinessMetricsRecord}
    {metric : BusinessMetricsRecord → ℚ} {r : BusinessMetricsRecord}
    (h : find_optimal_threshold l metric = some r) :
    r ∈ l ∧ ∀ s ∈ l, metric s ≤ metric r := by
  have hne : l ≠ [] := by
    rintro rfl
    simp [find_optimal_threshold] at h
  obtain ⟨r2, h2, hmem, hmax, _⟩ := find_optimal_threshold_spec l metric hne
  rw [h] at h2
  rw [Option.some.injEq] at h2
  exact h2 ▸ ⟨hmem, hmax⟩

/-- Membership in the numpy grid: exactly the values start + i·step that are
strictly below stop (exact arithmetic reading of np.arange with positive
step). -/
lemma mem_arange_iff {start stop step : ℚ} (hstep : 0 < step) (t : ℚ) :
    t ∈ arange start stop step ↔
      ∃ i : ℕ, t = start + (i : ℚ) * step ∧ t < stop := by
  have key : ∀ i : ℕ, i < (⌈(stop - start) / step⌉.toNat) ↔
      start + (i : ℚ) * step < stop := by
    intro i
    rw [Int.lt_toNat, Int.lt_ceil, lt_div_iff hstep]
    constructor
    · intro h
      push_cast at h
      linarith
    · intro h
      push_cast
      linarith
  constructor
  · intro ht
    simp only [arange, List.mem_map, List.mem_range] at ht
    obtain ⟨i, hi, rfl⟩ := ht
    exact ⟨i, rfl, (key i).mp hi⟩
  · rintro ⟨i, rfl, hlt⟩
    simp only [arange, List.mem_map, List.mem_range]
    exact ⟨i, (key i).mpr hlt, rfl⟩

/-- The numpy grid is strictly increasing when the step is positive. -/
lemma arange_sorted {start stop step : ℚ} (hstep : 0 < step) :
    (arange start stop step).Pairwise (· < ·) := by
  unfold arange
  rw [List.pairwise_map]
  refine (List.pairwise_lt_range _).imp ?_
  intro i j hij
  have : (i : ℚ) < (j : ℚ) := by exact_mod_cast hij
  nlinarith

-- ## Claim theorems

/-- Claim C1: every record returned by calculate_business_metrics satisfies
Retention_Cost = (TP+FP) * RETENTION_COST,
Revenue_Saved = TP * RETENTION_SUCCESS_RATE * CLV,
Opportunity_Cost = FN * RETENTION_SUCCESS_RATE * CLV (reported but not
subtracted from Net_ROI), and Net_ROI = Revenue_Saved - Retention_Cost. -/
theorem c1_business_metric_formulas (y_true : List Bool) (y_proba : List ℚ)
    (threshold : ℚ) (cm : CostMatrix) (r : BusinessMetricsRecord)
    (h : calculate_business_metrics y_true y_proba threshold cm = .ok r) :
    r.Retention_Cost = ((r.TP : ℚ) + (r.FP : ℚ)) * cm.RETENTION_COST ∧
    r.Revenue_Saved = (r.TP : ℚ) * cm.RETENTION_SUCCESS_RATE * cm.CLV ∧
    r.Opportunity_Cost = (r.FN : ℚ) * cm.RETENTION_SUCCESS_RATE * cm.CLV ∧
    r.Net_ROI = r.Revenue_Saved - r.Retention_Cost := by
  obtain ⟨-, -, -, -, -, -, -, h8, h9, h10, h11⟩ := calculate_ok _ _ _ _ _ h
  refine ⟨?_, h9, h10, h11⟩
  rw [h8]
  push_cast
  ring

/-- Witness for C1: the concrete scenario of spec section 8. -/
theorem c1_business_metric_formulas_witness :
    calculate_business_metrics [true, false, true, false, true]
        [9/10, 2/10, 6/10, 4/10, 8/10] (1/2) (get_cost_matrix 1200) =
      .ok { Threshold := 1/2, Customers_Contacted := 3, TP := 3, FP := 0,
            FN := 0, TN := 2, Precision := 1, Recall := 1, Retention_Cost := 150,
            Revenue_Saved := 900, Opportunity_Cost := 0, Net_ROI := 750 } ∧
    ((150 : ℚ) = ((3 : ℕ) + ((0 : ℕ) : ℚ)) * (get_cost_matrix 1200).RETENTION_COST ∧
      (900 : ℚ) = ((3 : ℕ) : ℚ) * (get_cost_matrix 1200).RETENTION_SUCCESS_RATE *
        (get_cost_matrix 1200).CLV ∧
      (0 : ℚ) = ((0 : ℕ) : ℚ) * (get_cost_matrix 1200).RETENTION_SUCCESS_RATE *
        (get_cost_matrix 1200).CLV ∧
      (750 : ℚ) = 900 - 150) :=
  ⟨by
    have hpred : y_pred [9/10, 2/10, 6/10, 4/10, 8/10] (1/2) =
        [true, false, true, false, true] := by
      simp [y_pred]
      norm_num
    simp only [calculate_business_metrics, hpred]
    simp [List.countP_cons, get_cost_matrix]
    norm_num,
    c1_business_metric_formulas [true, false, true, false, true]
      [9/10, 2/10, 6/10, 4/10, 8/10] (1/2) (get_cost_matrix 1200)
      { Threshold := 1/2, Customers_Contacted := 3, TP := 3, FP := 0,
        FN := 0, TN := 2, Precision := 1, Recall := 1, Retention_Cost := 150,
        Revenue_Saved := 900, Opportunity_Cost := 0, Net_ROI := 750 }
      (by
        have hpred : y_pred [9/10, 2/10, 6/10, 4/10, 8/10] (1/2) =
            [true, false, true, false, true] := by
          simp [y_pred]
          norm_num
        simp only [calculate_business_metrics, hpred]
        simp [List.countP_cons, get_cost_matrix]
        norm_num)⟩

/-- Claim C2: the classification step is inclusive — index i is predicted
positive exactly when its score is at least the threshold, a score exactly
equal to the threshold counts as positive, and at threshold 0 every index
whose score is at least 0 is predicted positive (contacted). -/
theorem c2_inclusive_threshold_classification (y_proba : List ℚ)
    (threshold : ℚ) (i : ℕ) (p : ℚ) (hp : y_proba.get? i = some p) :
    ((y_pred y_proba threshold).get? i = some true ↔ p ≥ threshold) ∧
    (p = threshold → (y_pred y_proba threshold).get? i = some true) ∧
    (0 ≤ p → (y_pred y_proba 0).get? i = some true) := by
  refine ⟨?_, ?_, ?_⟩
  · rw [y_pred, List.get?_map, hp]
    simp
  · intro hpt
    rw [y_pred, List.get?_map, hp]
    simp [hpt]
  · intro h0
    rw [y_pred, List.get?_map, hp]
    simp [h0]

/-- Witness for C2 at a concrete score list, with the score equal to the
threshold. -/
theorem c2_inclusive_threshold_classification_witness :
    ([1/2, 1/5] : List ℚ).get? 0 = some (1/2) ∧
    (((y_pred [1/2, 1/5] (1/2)).get? 0 = some true ↔ (1/2 : ℚ) ≥ 1/2) ∧
      ((1/2 : ℚ) = 1/2 → (y_pred [1/2, 1/5] (1/2)).get? 0 = some true) ∧
      (0 ≤ (1/2 : ℚ) → (y_pred [1/2, 1/5] 0).get? 0 = some true)) :=
  ⟨rfl, c2_inclusive_threshold_classification [1/2, 1/5] (1/2) 0 (1/2) rfl⟩

/-- Claim C6: for every record calculate_business_metrics returns, the
contingency counts (naturals, hence non-negative) sum to the common length N
of the two inputs, and Customers_Contacted equals TP + FP. -/
theorem c6_confusion_counts_conservation (y_true : List Bool)
    (y_proba : List ℚ) (threshold : ℚ) (cm : CostMatrix)
    (r : BusinessMetricsRecord)
    (h : calculate_business_metrics y_true y_proba threshold cm = .ok r) :
    r.TP + r.FP + r.FN + r.TN = y_true.length ∧
    y_true.length = y_proba.length ∧
    r.Customers_Contacted = r.TP + r.FP := by
  obtain ⟨h1, h2, h3, h4, h5, -, h7, -⟩ := calculate_ok _ _ _ _ _ h
  refine ⟨?_, h1, h7⟩
  rw [h2, h3, h4, h5, countP_confusion_partition, List.length_zip,
    length_y_pred, ← h1, min_self]

/-- Witness for C6 at a concrete mixed sample. -/
theorem c6_confusion_counts_conservation_witness :
    calculate_business_metrics [true, false, false] [8/10, 6/10, 1/10] (1/2)
        (get_cost_matrix 100) =
      .ok { Threshold := 1/2, Customers_Contacted := 2, TP := 1, FP := 1,
            FN := 0, TN := 1, Precision := 1/2, Recall := 1,
            Retention_Cost := 100, Revenue_Saved := 25, Opportunity_Cost := 0,
            Net_ROI := -75 } ∧
    ((1 + 1 + 0 + 1 = ([true, false, false] : List Bool).length) ∧
      ([true, false, false] : List Bool).length = ([8/10, 6/10, 1/10] : List ℚ).length ∧
      (2 : ℕ) = 1 + 1) :=
  ⟨by
    have hpred : y_pred [8/10, 6/10, 1/10] (1/2) = [true, true, false] := by
      simp [y_pred]
      norm_num
    simp only [calculate_business_metrics, hpred]
    simp [List.countP_cons, get_cost_matrix]
    norm_num,
    c6_confusion_counts_conservation [true, false, false] [8/10, 6/10, 1/10]
      (1/2) (get_cost_matrix 100)
      { Threshold := 1/2, Customers_Contacted := 2, TP := 1, FP := 1,
        FN := 0, TN := 1, Precision := 1/2, Recall := 1,
        Retention_Cost := 100, Revenue_Saved := 25, Opportunity_Cost := 0,
        Net_ROI := -75 }
      (by
        have hpred : y_pred [8/10, 6/10, 1/10] (1/2) = [true, true, false] := by
          simp [y_pred]
          norm_num
        simp only [calculate_business_metrics, hpred]
        simp [List.countP_cons, get_cost_matrix]
        norm_num)⟩

/-- Claim C7: the segment-specific cost matrix is the base matrix with only
CLV, TP and FN changed — TP and FN recomputed from the segment CLV with the
base matrix's unchanged RETENTION_SUCCESS_RATE and RETENTION_COST — while
FP, TN, RETENTION_COST and RETENTION_SUCCESS_RATE keep their base values;
the base matrix, being a value, is never mutated (the source copies it). -/
theorem c7_segment_cost_matrix_frame (y_true : List Bool) (y_proba : List ℚ)
    (base : CostMatrix) (segment_clv : ℚ) :
    (segment_cost_matrix base segment_clv).CLV = segment_clv ∧
    (segment_cost_matrix base segment_clv).TP =
      segment_clv * base.RETENTION_SUCCESS_RATE - base.RETENTION_COST ∧
    (segment_cost_matrix base segment_clv).FN =
      -(segment_clv * base.RETENTION_SUCCESS_RATE) ∧
    (segment_cost_matrix base segment_clv).FP = base.FP ∧
    (segment_cost_matrix base segment_clv).TN = base.TN ∧
    (segment_cost_matrix base segment_clv).RETENTION_COST =
      base.RETENTION_COST ∧
    (segment_cost_matrix base segment_clv).RETENTION_SUCCESS_RATE =
      base.RETENTION_SUCCESS_RATE ∧
    segment_threshold_analysis y_true y_proba segment_clv base =
      threshold_sweep y_true y_proba (segment_cost_matrix base segment_clv) :=
  ⟨rfl, rfl, rfl, rfl, rfl, rfl, rfl, rfl⟩

/-- Claim C3: for positive step, threshold_sweep evaluates exactly the
ascending half-open grid of start + i*step below stop (defaults 0.1, 0.95,
0.05), one calculate_business_metrics call per grid point in ascending
order, one row per grid value, each row carrying its grid threshold. -/
theorem c3_threshold_sweep_grid (y_true : List Bool) (y_proba : List ℚ)
    (cm : CostMatrix) (start stop step : ℚ) (hstep : 0 < step) :
    threshold_sweep y_true y_proba cm =
      threshold_sweep y_true y_proba cm (1/10) (19/20) (1/20) ∧
    (arange start stop step).Pairwise (· < ·) ∧
    (∀ t, t ∈ arange start stop step ↔
      ∃ i : ℕ, t = start + (i : ℚ) * step ∧ t < stop) ∧
    ∀ table, threshold_sweep y_true y_proba cm start stop step = .ok table →
      table.length = (arange start stop step).length ∧
      ∀ i t r, (arange start stop step).get? i = some t →
        table.get? i = some r →
          calculate_business_metrics y_true y_proba t cm = .ok r ∧
          r.Threshold = t := by
  refine ⟨rfl, arange_sorted hstep, fun t => mem_arange_iff hstep t, ?_⟩
  intro table htab
  have htab2 : mapExcept
      (fun t => calculate_business_metrics y_true y_proba t cm)
      (arange start stop step) = .ok table := htab
  obtain ⟨hlen, hget⟩ := mapExcept_ok _ _ _ htab2
  refine ⟨hlen, ?_⟩
  intro i t r ht hr
  have hcalc := hget i t r ht hr
  obtain ⟨-, -, -, -, -, h6, -⟩ := calculate_ok _ _ _ _ _ hcalc
  exact ⟨hcalc, h6⟩

/-- Witness for C3 at the default grid and a concrete two-customer input. -/
theorem c3_threshold_sweep_grid_witness :
    (0 : ℚ) < 1/20 ∧
    (threshold_sweep [true, false] [9/10, 2/10] (get_cost_matrix 1200) =
      threshold_sweep [true, false] [9/10, 2/10] (get_cost_matrix 1200)
        (1/10) (19/20) (1/20) ∧
    (arange (1/10) (19/20) (1/20)).Pairwise (· < ·) ∧
    (∀ t, t ∈ arange (1/10) (19/20) (1/20) ↔
      ∃ i : ℕ, t = 1/10 + (i : ℚ) * (1/20) ∧ t < 19/20) ∧
    ∀ table, threshold_sweep [true, false] [9/10, 2/10] (get_cost_matrix 1200)
        (1/10) (19/20) (1/20) = .ok table →
      table.length = (arange (1/10) (19/20) (1/20)).length ∧
      ∀ i t r, (arange (1/10) (19/20) (1/20)).get? i = some t →
        table.get? i = some r →
          calculate_business_metrics [true, false] [9/10, 2/10] t
            (get_cost_matrix 1200) = .ok r ∧
          r.Threshold = t) :=
  ⟨by norm_num,
    c3_threshold_sweep_grid [true, false] [9/10, 2/10] (get_cost_matrix 1200)
      (1/10) (19/20) (1/20) (by norm_num)⟩

/-- Claim C4: on a non-empty sweep table, find_optimal_threshold returns a
record of the table whose value of the optimized metric is maximal, and when
the table is in ascending-threshold order, ties resolve to the
lowest-threshold record. -/
theorem c4_find_optimal_first_max (sweep_df : List BusinessMetricsRecord)
    (metric : BusinessMetricsRecord → ℚ) (hne : sweep_df ≠ []) :
    ∃ r, find_optimal_threshold sweep_df metric = some r ∧ r ∈ sweep_df ∧
      (∀ s ∈ sweep_df, metric s ≤ metric r) ∧
      (sweep_df.Pairwise (fun a b => a.Threshold ≤ b.Threshold) →
        ∀ s ∈ sweep_df, metric s = metric r → r.Threshold ≤ s.Threshold) := by
  obtain ⟨r, hopt, hmem, hmax, hfirst⟩ :=
    find_optimal_threshold_spec sweep_df metric hne
  refine ⟨r, hopt, hmem, hmax, ?_⟩
  intro hsort s hs hmetric
  obtain ⟨j, hj⟩ := List.mem_iff_get?.mp hs
  have hidx : sweep_df.get? (idxmax (sweep_df.map metric)) = some r := hopt
  by_cases hji : j < idxmax (sweep_df.map metric)
  · exact absurd hmetric (ne_of_lt (hfirst j s hji hj))
  · push_neg at hji
    rcases eq_or_lt_of_le hji with heq | hlt
    · rw [heq, hj, Option.some.injEq] at hidx
      exact le_of_eq (congrArg BusinessMetricsRecord.Threshold hidx.symm)
    · obtain ⟨hilen, higet⟩ := List.get?_eq_some.mp hidx
      obtain ⟨hjlen, hjget⟩ := List.get?_eq_some.mp hj
      have hpw := List.pairwise_iff_get.mp hsort ⟨_, hilen⟩ ⟨_, hjlen⟩ hlt
      rw [higet, hjget] at hpw
      exact hpw

/-- Witness for C4 on a concrete two-row table with tied Net_ROI values
in ascending-threshold order. -/
theorem c4_find_optimal_first_max_witness :
    ([sampleRow1, sampleRow2] ≠ []) ∧
    (∃ r, find_optimal_threshold [sampleRow1, sampleRow2]
        (fun r => r.Net_ROI) = some r ∧ r ∈ [sampleRow1, sampleRow2] ∧
      (∀ s ∈ [sampleRow1, sampleRow2], s.Net_ROI ≤ r.Net_ROI) ∧
      (([sampleRow1, sampleRow2] : List BusinessMetricsRecord).Pairwise
          (fun a b => a.Threshold ≤ b.Threshold) →
        ∀ s ∈ [sampleRow1, sampleRow2], s.Net_ROI = r.Net_ROI →
          r.Threshold ≤ s.Threshold)) :=
  ⟨List.cons_ne_nil _ _,
    c4_find_optimal_first_max [sampleRow1, sampleRow2] (fun r => r.Net_ROI)
      (List.cons_ne_nil _ _)⟩

/-- Claim C5: on non-empty sweeps, compare_models selects Logistic
Regression (the first argument) exactly when its maximum Net_ROI is strictly
greater than Random Forest's; on an exact tie Random Forest (the second
argument) is selected; the returned dictionary carries the selected model's
optimal threshold, ROI, sweep and optimal record. -/
theorem c5_compare_models_tie_break (lr_sweep rf_sweep : List BusinessMetricsRecord)
    (hA : lr_sweep ≠ []) (hB : rf_sweep ≠ []) :
    ∃ res lr_optimal rf_optimal,
      find_optimal_threshold lr_sweep (fun r => r.Net_ROI) = some lr_optimal ∧
      find_optimal_threshold rf_sweep (fun r => r.Net_ROI) = some rf_optimal ∧
      (∀ s ∈ lr_sweep, s.Net_ROI ≤ lr_optimal.Net_ROI) ∧
      (∀ s ∈ rf_sweep, s.Net_ROI ≤ rf_optimal.Net_ROI) ∧
      compare_models lr_sweep rf_sweep = some res ∧
      (res.model = "Logistic Regression" ↔
        rf_optimal.Net_ROI < lr_optimal.Net_ROI) ∧
      (lr_optimal.Net_ROI = rf_optimal.Net_ROI → res.model = "Random Forest") ∧
      (rf_optimal.Net_ROI < lr_optimal.Net_ROI →
        res = { model := "Logistic Regression", threshold := lr_optimal.Threshold,
                roi := lr_optimal.Net_ROI, sweep := lr_sweep,
                optimal := lr_optimal }) ∧
      (lr_optimal.Net_ROI ≤ rf_optimal.Net_ROI →
        res = { model := "Random Forest", threshold := rf_optimal.Threshold,
                roi := rf_optimal.Net_ROI, sweep := rf_sweep,
                optimal := rf_optimal }) := by
  obtain ⟨lrOpt, hlr, -, hlrmax, -⟩ :=
    find_optimal_threshold_spec lr_sweep (fun r => r.Net_ROI) hA
  obtain ⟨rfOpt, hrf, -, hrfmax, -⟩ :=
    find_optimal_threshold_spec rf_sweep (fun r => r.Net_ROI) hB
  by_cases hcmp : rfOpt.Net_ROI < lrOpt.Net_ROI
  · refine ⟨{ model := "Logistic Regression", threshold := lrOpt.Threshold,
              roi := lrOpt.Net_ROI, sweep := lr_sweep, optimal := lrOpt },
      lrOpt, rfOpt, hlr, hrf, hlrmax, hrfmax, ?_, ?_, ?_, ?_, ?_⟩
    · simp only [compare_models, hlr, hrf, Option.some_bind, if_pos hcmp]
    · exact ⟨fun _ => hcmp, fun _ => rfl⟩
    · intro heq
      rw [heq] at hcmp
      exact absurd hcmp (lt_irrefl _)
    · exact fun _ => rfl
    · intro hle
      exact absurd hcmp (not_lt.mpr hle)
  · refine ⟨{ model := "Random Forest", threshold := rfOpt.Threshold,
              roi := rfOpt.Net_ROI, sweep := rf_sweep, optimal := rfOpt },
      lrOpt, rfOpt, hlr, hrf, hlrmax, hrfmax, ?_, ?_, ?_, ?_, ?_⟩
    · simp only [compare_models, hlr, hrf, Option.some_bind, if_neg hcmp]
    · exact ⟨fun h => absurd h (by simp), fun h => absurd h hcmp⟩
    · exact fun _ => rfl
    · intro h
      exact absurd h hcmp
    · exact fun _ => rfl

/-- Witness for C5 on two one-row sweeps whose maxima tie exactly. -/
theorem c5_compare_models_tie_break_witness :
    ([sampleRow2] ≠ []) ∧ ([sampleRow1] ≠ []) ∧
    (∃ res lr_optimal rf_optimal,
      find_optimal_threshold [sampleRow2] (fun r => r.Net_ROI) = some lr_optimal ∧
      find_optimal_threshold [sampleRow1] (fun r => r.Net_ROI) = some rf_optimal ∧
      (∀ s ∈ [sampleRow2], s.Net_ROI ≤ lr_optimal.Net_ROI) ∧
      (∀ s ∈ [sampleRow1], s.Net_ROI ≤ rf_optimal.Net_ROI) ∧
      compare_models [sampleRow2] [sampleRow1] = some res ∧
      (res.model = "Logistic Regression" ↔
        rf_optimal.Net_ROI < lr_optimal.Net_ROI) ∧
      (lr_optimal.Net_ROI = rf_optimal.Net_ROI → res.model = "Random Forest") ∧
      (rf_optimal.Net_ROI < lr_optimal.Net_ROI →
        res = { model := "Logistic Regression", threshold := lr_optimal.Threshold,
                roi := lr_optimal.Net_ROI, sweep := [sampleRow2],
                optimal := lr_optimal }) ∧
      (lr_optimal.Net_ROI ≤ rf_optimal.Net_ROI →
        res = { model := "Random Forest", threshold := rf_optimal.Threshold,
                roi := rf_optimal.Net_ROI, sweep := [sampleRow1],
                optimal := rf_optimal })) :=
  ⟨List.cons_ne_nil _ _, List.cons_ne_nil _ _,
    c5_compare_models_tie_break [sampleRow2] [sampleRow1]
      (List.cons_ne_nil _ _) (List.cons_ne_nil _ _)⟩

/-- Claim C8: whenever compare_strategies produces a result (both sweeps
non-empty and the shared threshold found in both), the segment-optimal total
is at least the shared-threshold total, so the reported improvement is
non-negative. -/
theorem c8_segmented_at_least_single
    (high_value_sweep low_value_sweep : List BusinessMetricsRecord)
    (best_single_threshold : ℚ) (c : StrategyComparison)
    (h : compare_strategies high_value_sweep low_value_sweep
      best_single_threshold = some c) :
    c.single_total_roi ≤ c.segment_total_roi ∧ 0 ≤ c.improvement ∧
    c.improvement = c.segment_total_roi - c.single_total_roi ∧
    c.single_total_roi = c.single_high_roi + c.single_low_roi ∧
    c.segment_total_roi =
      c.high_value_optimal.Net_ROI + c.low_value_optimal.Net_ROI := by
  simp only [compare_strategies, Option.bind_eq_some] at h
  obtain ⟨hOpt, hfh, lOpt, hfl, rh, hrh, rl, hrl, hsome⟩ := h
  rw [Option.some.injEq] at hsome
  have hrh_mem : rh ∈ high_value_sweep :=
    List.mem_of_mem_filter (List.mem_of_mem_head? (Option.mem_def.mpr hrh))
  have hrl_mem : rl ∈ low_value_sweep :=
    List.mem_of_mem_filter (List.mem_of_mem_head? (Option.mem_def.mpr hrl))
  have hhle : rh.Net_ROI ≤ hOpt.Net_ROI :=
    (find_optimal_threshold_mem_max hfh).2 rh hrh_mem
  have hlle : rl.Net_ROI ≤ lOpt.Net_ROI :=
    (find_optimal_threshold_mem_max hfl).2 rl hrl_mem
  subst hsome
  refine ⟨by simpa using add_le_add hhle hlle, ?_, by ring, rfl, rfl⟩
  simp only [sub_nonneg]
  exact add_le_add hhle hlle

/-- Witness for C8 on concrete one-row segment sweeps sharing threshold
0.25. -/
theorem c8_segmented_at_least_single_witness :
    compare_strategies [sampleRow1] [sampleRow1] (1/4) =
      some { single_threshold := 1/4, single_high_roi := 250,
             single_low_roi := 250, single_total_roi := 500,
             high_value_optimal := sampleRow1, low_value_optimal := sampleRow1,
             segment_total_roi := 500, improvement := 0 } ∧
    ((500 : ℚ) ≤ 500 ∧ (0 : ℚ) ≤ 0 ∧ (0 : ℚ) = 500 - 500 ∧
      (500 : ℚ) = 250 + 250 ∧ (500 : ℚ) = sampleRow1.Net_ROI + sampleRow1.Net_ROI) :=
  ⟨by
    simp [compare_strategies, find_optimal_threshold, idxmax, sampleRow1]
    norm_num,
    c8_segmented_at_least_single [sampleRow1] [sampleRow1] (1/4)
      { single_threshold := 1/4, single_high_roi := 250,
        single_low_roi := 250, single_total_roi := 500,
        high_value_optimal := sampleRow1, low_value_optimal := sampleRow1,
        segment_total_roi := 500, improvement := 0 }
      (by
        simp [compare_strategies, find_optimal_threshold, idxmax, sampleRow1]
        norm_num)⟩

/-- A mapExcept run aborts with the first element's error. -/
lemma mapExcept_error_of_head {α β ε : Type} (f : α → Except ε β) (a : α)
    (l : List α) (e : ε) (ha : f a = .error e) :
    mapExcept f (a :: l) = .error e := by
  simp only [mapExcept, ha]

/-- Counterexample to claim C9: with non-empty, equal-length inputs whose
labels are all positive, the very first grid point of the default sweep
already fails (labels and predictions contain only the one class true, so
the 2x2 confusion-matrix unpacking raises), and the sweep aborts instead of
producing a record for every grid point. -/
theorem c9_counterexample_one_class :
    threshold_sweep [true, true] [9/10, 8/10] (get_cost_matrix 1200) =
      .error .confusionMatrixUnpack := by
  have hn : (⌈(((19:ℚ)/20) - 1/10) / (1/20)⌉.toNat) = 17 := by
    rw [show (((19:ℚ)/20) - 1/10) / (1/20) = ((17:ℤ) : ℚ) by norm_num]
    rw [Int.ceil_intCast]
    rfl
  have hcalc : calculate_business_metrics [true, true] [9/10, 8/10]
      (1/10 + ((0:ℕ) : ℚ) * (1/20)) (get_cost_matrix 1200) =
      .error .confusionMatrixUnpack := by
    have hpred : y_pred [9/10, 8/10] (1/10 + ((0:ℕ) : ℚ) * (1/20)) =
        [true, true] := by
      simp [y_pred]
      norm_num
    simp only [calculate_business_metrics, hpred]
    simp
  show mapExcept _ (arange (1/10) (19/20) (1/20)) = _
  rw [arange, hn, show (17:ℕ) = 16 + 1 from rfl, List.range_succ_eq_map]
  simp only [List.map_cons]
  exact mapExcept_error_of_head _ _ _ _ hcalc

/-- Claim C9 as amended: provided the true labels contain both classes (so
that every confusion matrix is 2x2 regardless of the predictions) and the
lengths agree, every requested grid point is evaluated and produces a
record — none is retried or skipped, including degenerate points where zero
customers are contacted. -/
theorem c9_amended_sweep_total_on_mixed_labels (y_true : List Bool)
    (y_proba : List ℚ) (cm : CostMatrix) (start stop step : ℚ)
    (hlen : y_true.length = y_proba.length)
    (hpos : true ∈ y_true) (hneg : false ∈ y_true) :
    ∃ table, threshold_sweep y_true y_proba cm start stop step = .ok table ∧
      table.length = (arange start stop step).length ∧
      ∀ i t, (arange start stop step).get? i = some t →
        ∃ r, table.get? i = some r ∧
          calculate_business_metrics y_true y_proba t cm = .ok r := by
  obtain ⟨table, htab⟩ := mapExcept_ok_of_forall
    (fun t => calculate_business_metrics y_true y_proba t cm)
    (arange start stop step)
    (fun t _ => calculate_ok_of_mixed y_true y_proba t cm hlen hpos hneg)
  obtain ⟨hlen2, hget⟩ := mapExcept_ok _ _ _ htab
  refine ⟨table, htab, hlen2, ?_⟩
  intro i t ht
  have hi : i < table.length := by
    rw [hlen2]
    exact (List.get?_eq_some.mp ht).1
  rcases hr : table.get? i with _ | r
  · rw [List.get?_eq_none] at hr
    exact absurd hi (not_lt.mpr hr)
  · exact ⟨r, rfl, hget i t r ht hr⟩

/-- Witness for the amended C9 on a concrete mixed-label input over the
default grid. -/
theorem c9_amended_sweep_total_on_mixed_labels_witness :
    ([true, false] : List Bool).length = ([9/10, 2/10] : List ℚ).length ∧
    true ∈ [true, false] ∧ false ∈ [true, false] ∧
    (∃ table, threshold_sweep [true, false] [9/10, 2/10] (get_cost_matrix 1200)
        (1/10) (19/20) (1/20) = .ok table ∧
      table.length = (arange (1/10) (19/20) (1/20)).length ∧
      ∀ i t, (arange (1/10) (19/20) (1/20)).get? i = some t →
        ∃ r, table.get? i = some r ∧
          calculate_business_metrics [true, false] [9/10, 2/10] t
            (get_cost_matrix 1200) = .ok r) :=
  ⟨rfl, by simp, by simp,
    c9_amended_sweep_total_on_mixed_labels [true, false] [9/10, 2/10]
      (get_cost_matrix 1200) (1/10) (19/20) (1/20) rfl (by simp) (by simp)⟩

/-- Counterexample to claim C10: a threshold outside [0,1] does not raise
any error — calculate_business_metrics accepts threshold 3/2 on a valid
two-customer input and returns an ordinary record (with nobody contacted). -/
theorem c10_counterexample_out_of_range_threshold :
    calculate_business_metrics [true, false] [9/10, 1/5] (3/2)
        (get_cost_matrix 1200) =
      .ok { Threshold := 3/2, Customers_Contacted := 0, TP := 0, FP := 0,
            FN := 1, TN := 1, Precision := 0, Recall := 0, Retention_Cost := 0,
            Revenue_Saved := 0, Opportunity_Cost := 300, Net_ROI := 0 } := by
  have hpred : y_pred [9/10, 1/5] (3/2) = [false, false] := by
    simp [y_pred]
    norm_num
  simp only [calculate_business_metrics, hpred]
  simp [List.countP_cons, get_cost_matrix]
  norm_num

/-- Claim C10 as amended: calculate_business_metrics performs no explicit
validation and raises no error of its own; it fails exactly when the two
inputs differ in length (the sklearn length check) or when the labels
together with the thresholded predictions contain fewer than two classes
(the confusion-matrix unpacking; this covers all empty inputs), and a
threshold outside [0,1] is accepted whenever those conditions hold. -/
theorem c10_amended_no_validation (y_true : List Bool) (y_proba : List ℚ)
    (threshold : ℚ) (cm : CostMatrix) :
    ((∃ r, calculate_business_metrics y_true y_proba threshold cm = .ok r) ↔
      (y_true.length = y_proba.length ∧
        true ∈ y_true ++ y_pred y_proba threshold ∧
        false ∈ y_true ++ y_pred y_proba threshold)) ∧
    (y_true.length ≠ y_proba.length →
      calculate_business_metrics y_true y_proba threshold cm =
        .error .lengthMismatch) := by
  constructor
  · constructor
    · rintro ⟨r, h⟩
      simp only [calculate_business_metrics] at h
      by_cases h1 : y_true.length = y_proba.length
      · by_cases h2 : true ∈ y_true ++ y_pred y_proba threshold ∧
            false ∈ y_true ++ y_pred y_proba threshold
        · exact ⟨h1, h2.1, h2.2⟩
        · rw [if_pos h1, if_neg h2] at h
          exact absurd h (by simp)
      · rw [if_neg h1] at h
        exact absurd h (by simp)
    · rintro ⟨h1, h2, h3⟩
      simp only [calculate_business_metrics]
      rw [if_pos h1, if_pos ⟨h2, h3⟩]
      exact ⟨_, rfl⟩
  · intro h1
    simp only [calculate_business_metrics]
    rw [if_neg h1]

/-- Witness instantiating the amended C10 on concrete inputs: an
out-of-range threshold on a valid sample, and a length mismatch. -/
theorem c10_amended_no_validation_witness :
    (((∃ r, calculate_business_metrics [true, false] [9/10, 1/5] (3/2)
        (get_cost_matrix 1200) = .ok r) ↔
      (([true, false] : List Bool).length = ([9/10, 1/5] : List ℚ).length ∧
        true ∈ [true, false] ++ y_pred [9/10, 1/5] (3/2) ∧
        false ∈ [true, false] ++ y_pred [9/10, 1/5] (3/2))) ∧
      (([true, false] : List Bool).length ≠ ([9/10, 1/5] : List ℚ).length →
        calculate_business_metrics [true, false] [9/10, 1/5] (3/2)
          (get_cost_matrix 1200) = .error .lengthMismatch)) ∧
    (([true] : List Bool).length ≠ ([] : List ℚ).length →
      calculate_business_metrics [true] [] (1/2) (get_cost_matrix 1200) =
        .error .lengthMismatch) :=
  ⟨c10_amended_no_validation [true, false] [9/10, 1/5] (3/2)
      (get_cost_matrix 1200),
    (c10_amended_no_validation [true] [] (1/2) (get_cost_matrix 1200)).2⟩
